import Mathlib

/-!
Verification development for the tool-orchestration and workflow-execution
core of the hr-mistral-bot repository.  The Python sources
(`tool_executor.py`, `agent_core.py`, `mcp_client.py`, `skills_extended.py`)
are shallowly embedded as executable Lean definitions: Python dictionaries
become lookup maps, exceptions become `Except String`, in-place mutation
becomes explicit state passing, and the child process behind a stdio MCP
connection becomes a deterministic responder oracle.  Wall-clock timestamps
are passed in explicitly (`datetime.now().timestamp()` becomes a `now`
argument), and the wall-clock duration stored in `execution_time_ms` is
abstracted to `0` since real time is not embeddable.
-/

namespace HRBot

/-- A JSON-like Python value, as passed between the embedded components.
`none` is Python `None`. -/
inductive PyVal where
  | none : PyVal
  | str : String → PyVal
  | bool : Bool → PyVal
  | int : Int → PyVal
  | dict : List (String × PyVal) → PyVal
  | list : List PyVal → PyVal

/-- The dictionary `{"error": msg}` that several components return on failure. -/
def errDict (msg : String) : PyVal := PyVal.dict [("error", PyVal.str msg)]

/-- A Python dict with string keys, modelled by its key-to-value lookup map. -/
abbrev StrMap := String → Option PyVal

/-- The empty dict. -/
def emptyMap : StrMap := fun _ => Option.none

/-- `m[k] = v` on a dict modelled as a lookup map. -/
def fset {α : Type} (m : String → Option α) (k : String) (v : α) :
    String → Option α :=
  fun t => if t = k then some v else m t

/-- `m.pop(k, None)` on a dict modelled as a lookup map. -/
def fpop {α : Type} (m : String → Option α) (k : String) :
    String → Option α :=
  fun t => if t = k then Option.none else m t

/-- The Python dict-merge `{**a, **b}`: keys of `b` win over keys of `a`
(`agent_core.py` line 515 merges step params over workflow params this way). -/
def pyUnion (a b : StrMap) : StrMap :=
  fun k =>
    match b k with
    | some v => some v
    | Option.none => a k

/-- The single-quote character, used in workflow error messages. -/
def sq : String := String.singleton (Char.ofNat 39)

/-! ## `agent_core.py`: `WorkflowEngine` -/

/-- `TaskStatus` (agent_core.py lines 18-23). -/
inductive TaskStatus where
  | pending
  | in_progress
  | completed
  | failed
  | needs_input
deriving DecidableEq, Repr

/-- The immutable part of a workflow step dict: its `name`, `tool`, and the
truthiness of its optional `required` key (agent_core.py WORKFLOWS entries). -/
structure WFStep where
  name : String
  tool : String
  required : Bool
deriving DecidableEq, Repr

/-- The dict returned by `WorkflowEngine.execute_step` (agent_core.py lines
521 and 524): `{"success": ..., "error": ...}` with `error` absent on
success.  The tool's `result` payload is irrelevant to workflow control flow
and is not tracked. -/
structure StepOutcome where
  success : Bool
  error : Option String
deriving DecidableEq, Repr

/-- One element of `task.steps`: `{"step": s, "status": ..., "result": ...}`
(agent_core.py line 488, mutated at lines 540-541). -/
structure StepEntry where
  step : WFStep
  stStatus : String
  recorded : Option StepOutcome
deriving DecidableEq, Repr

/-- The control-relevant fields of a `Task` (agent_core.py lines 26-37).
`created_at`/`updated_at` timestamps and the accumulated `result` payload do
not influence control flow and are omitted. -/
structure Task where
  status : TaskStatus
  current_step : Nat
  steps : List StepEntry
  error : Option String
deriving DecidableEq, Repr

/-- Observable actions of `continue_workflow`: dispatching step `i` via
`execute_step`, and persisting the task via `MemorySystem.save_task`. -/
inductive WFEvent where
  | exec (i : Nat)
  | save
deriving DecidableEq, Repr

/-- The error text built at agent_core.py line 551:
`f"Step '{name}' failed: {step_result.get('error')}"`.
`Python `dict.get` yields `None` (printed `None`) when the key is absent. -/
def mkStepError (name : String) (err : String) : String :=
  "Step " ++ sq ++ name ++ sq ++ " failed: " ++ err

/-- The `while task.current_step < len(task.steps)` loop of
`WorkflowEngine.continue_workflow` (agent_core.py lines 537-554), with the
outcome of `execute_step` at index `i` supplied by the oracle `o`.  Returns
the mutated task and the list of observable events; `fuel` bounds the
iteration count (the caller passes `len(steps) - current_step`, which the
loop never exceeds since each iteration advances `current_step`). -/
def contLoop (o : Nat → StepOutcome) : Nat → Task → Task × List WFEvent
  | 0, t => (t, [])
  | Nat.succ fuel, t =>
    if h : t.current_step < t.steps.length then
      let i := t.current_step
      let r := o i
      let entry := t.steps.get ⟨i, h⟩
      let entry' : StepEntry :=
        { entry with
            stStatus := if r.success then "completed" else "failed"
            recorded := some r }
      let t1 : Task := { t with steps := t.steps.set i entry' }
      if !r.success && entry.step.required then
        ({ t1 with
             status := TaskStatus.failed
             error := some (mkStepError entry.step.name (r.error.getD "None")) },
         [WFEvent.exec i])
      else
        let rest := contLoop o fuel { t1 with current_step := i + 1 }
        (rest.1, WFEvent.exec i :: rest.2)
    else (t, [])

/-- `WorkflowEngine.continue_workflow` (agent_core.py lines 526-561), for a
task that was found (the task-lookup `ValueError` at line 531 concerns a
missing id, not a task value, and is outside this embedding).  Mirrors: the
early return for non-in-progress tasks (line 534), the step loop, the
completion check `current_step >= len(steps)` (line 557), and the single
`save_task` call (line 560). -/
def continue_workflow (o : Nat → StepOutcome) (t : Task) : Task × List WFEvent :=
  if t.status ≠ TaskStatus.in_progress then (t, [])
  else
    let res := contLoop o (t.steps.length - t.current_step) t
    let t2 :=
      if res.1.steps.length ≤ res.1.current_step then
        { res.1 with status := TaskStatus.completed }
      else res.1
    (t2, res.2 ++ [WFEvent.save])

/-- Whether index `k` of a step list is a failing required step under the
outcome oracle `o`: the loop's break condition
`not step_result["success"] and step.get("required")` (agent_core.py
line 549) evaluated at `k`. -/
def reqFailAt (o : Nat → StepOutcome) (steps : List StepEntry) (k : Nat) :
    Bool :=
  match steps[k]? with
  | some en => en.step.required && !(o k).success
  | Option.none => false

/-- The `name` of step `k` of a step list (empty when out of range). -/
def stepNameAt (steps : List StepEntry) (k : Nat) : String :=
  match steps[k]? with
  | some en => en.step.name
  | Option.none => ""

/-- The parameter-dict computation of `WorkflowEngine.execute_step`
(agent_core.py lines 511-515): start from the step's static params
(`step.get("params", {})`) and, when the task carries workflow-level params
(`task.result["params"]`), merge as `{**task.result["params"], **params}`. -/
def executeStepParams (taskParams : Option StrMap) (stepParams : StrMap) :
    StrMap :=
  match taskParams with
  | some wf => pyUnion wf stepParams
  | Option.none => stepParams

/-! ## `tool_executor.py`: `ToolPolicy`, rate limiting, `ToolCallResult` -/

/-- `ToolType` (tool_executor.py lines 35-40). -/
inductive ToolTypeK where
  | LOCAL
  | MCP_EXTERNAL
  | MCP_BUILTIN
  | EXTENDED
deriving DecidableEq, Repr

/-- The dispatch-relevant part of `ToolDefinition` (tool_executor.py lines
43-55); the description, parameter schema and flags are carried along but
never read by `ToolExecutor.execute`. -/
structure ToolDefinition where
  name : String
  tool_type : ToolTypeK
  dangerous : Bool := false
  rate_limit : Option Nat := Option.none

/-- `ToolPolicy` (tool_executor.py lines 235-273). -/
structure ToolPolicy where
  require_confirmation : List String
  rate_limits : String → Option Nat
  blocked : List String
  allowed_for_all : List String

/-- The rate ceilings hard-coded in `ToolPolicy.__init__`
(tool_executor.py lines 247-250). -/
def defaultRateLimits : String → Option Nat := fun t =>
  if t = "image_generate" then some 10
  else if t = "browser_search" then some 30
  else Option.none

/-- The `ToolPolicy` as constructed by `ToolPolicy.__init__`
(tool_executor.py lines 240-261). -/
def defaultPolicy : ToolPolicy where
  require_confirmation := ["terminal_execute", "fs_delete", "memory_clear"]
  rate_limits := defaultRateLimits
  blocked := []
  allowed_for_all :=
    ["fs_read_file", "fs_list_dir", "fs_search",
     "memory_remember", "memory_recall", "memory_list",
     "browser_search", "browser_fetch",
     "image_generate", "image_describe", "image_list"]

/-- `ToolPolicy.is_allowed` (tool_executor.py lines 263-269); the `user_id`
argument is accepted and ignored by the source. -/
def ToolPolicy.is_allowed (p : ToolPolicy) (tool : String) : Bool × String :=
  if tool ∈ p.blocked then (false, "Tool " ++ tool ++ " is blocked")
  else (true, "OK")

/-- `ToolPolicy.needs_confirmation` (tool_executor.py lines 271-273). -/
def ToolPolicy.needsConf (p : ToolPolicy) (tool : String) : Bool :=
  tool ∈ p.require_confirmation

/-- `ToolCallResult` (tool_executor.py lines 68-76).  `execution_time_ms` is
wall-clock time in the source and is abstracted to `0` here. -/
structure ToolCallResult where
  success : Bool
  result : PyVal
  error : Option String := Option.none
  execution_time_ms : Nat := 0
  tool_name : String := ""
  cached : Bool := false

/-- A failed `ToolCallResult` as built on every failure path of
`ToolExecutor.execute`. -/
def mkFail (tool : String) (e : String) : ToolCallResult where
  success := false
  result := PyVal.none
  error := some e
  tool_name := tool

/-- The successful `ToolCallResult` built at tool_executor.py lines 390-395. -/
def mkOk (tool : String) (v : PyVal) : ToolCallResult where
  success := true
  result := v
  tool_name := tool

/-- `ToolExecutor._check_rate_limit` (tool_executor.py lines 452-471).
`counters` is `self._rate_counters`; `now` is
`datetime.now().timestamp()` in whole seconds.  Returns the verdict and the
updated counters (unchanged when the call is denied, since the source only
writes the filtered list back on the allow path). -/
def checkRateLimit (p : ToolPolicy) (counters : String → List Int)
    (tool : String) (now : Int) : Bool × (String → List Int) :=
  match p.rate_limits tool with
  | Option.none => (true, counters)
  | some limit =>
    if limit = 0 then (true, counters)
    else
      let minute_ago := now - 60
      let calls := (counters tool).filter (fun t => decide (minute_ago < t))
      if limit ≤ calls.length then (false, counters)
      else (true, fun s => if s = tool then calls ++ [now] else counters s)

/-- A sequence of `_check_rate_limit` probes for one tool at the given call
times, threading the counter state; returns the verdicts in call order. -/
def runRateCalls (p : ToolPolicy) (c : String → List Int) (tool : String) :
    List Int → List Bool
  | [] => []
  | now :: rest =>
    let step := checkRateLimit p c tool now
    step.1 :: runRateCalls p step.2 tool rest

/-- Modelled from the spec (claim C8): a call at time `now` is allowed iff
fewer than `limit` prior allowed calls fall strictly within the preceding 60
seconds; denied calls are not recorded.  `allowedT` accumulates the times of
allowed calls. -/
def specAllowedFlags (limit : Nat) : List Int → List Int → List Bool
  | _, [] => []
  | allowedT, now :: rest =>
    if (allowedT.filter (fun t => decide (now - 60 < t))).length < limit then
      true :: specAllowedFlags limit (allowedT ++ [now]) rest
    else
      false :: specAllowedFlags limit allowedT rest

/-! ## `mcp_client.py`: connections, client manager, local servers,
orchestrator -/

/-- Tool-call arguments: a Python dict passed by value through the dispatch
chain. -/
abbrev Args := List (String × PyVal)

/-- Python truthiness of an embedded value (`if result:` tests). -/
def pyTruthy : PyVal → Bool
  | PyVal.none => false
  | PyVal.str s => !s.isEmpty
  | PyVal.bool b => b
  | PyVal.int n => n != 0
  | PyVal.dict es => !es.isEmpty
  | PyVal.list xs => !xs.isEmpty

/-- `MCPTransport` (mcp_client.py lines 29-32). -/
inductive MCPTransportK where
  | stdio
  | http
  | websocket
deriving DecidableEq, Repr

/-- `MCPTool` (mcp_client.py lines 35-51): the discovered catalog entry. -/
structure MCPToolM where
  name : String
  description : String := ""
  input_schema : PyVal := PyVal.dict []

/-- One parsed JSON-RPC reply line: its `id` and `result` fields.  The
child process writes this as one newline-terminated JSON object; parsing is
abstracted, with `Option.none` standing for an unparseable line. -/
structure ReplyMsg where
  id : Int
  result : Option PyVal

/-- The child process behind a stdio connection, abstracted as a
deterministic responder: given the request's `id`, `method` and `params`
(the fields `_send_request` writes), it yields the parsed reply line, or
`Option.none` when the line fails to parse (`json.loads` raising, which the
source catches). -/
structure ProcOracle where
  respond : Int → String → PyVal → Option ReplyMsg

/-- The state of an `MCPServerConnection` (mcp_client.py lines 124-134),
plus a responder oracle for its HTTP variant (`_call_tool_http` catches its
own exceptions, so it is a total function into values). -/
structure MCPConnSt where
  connected : Bool
  transport : MCPTransportK
  tools : List MCPToolM
  request_id : Int
  process : Option ProcOracle
  httpCall : String → Args → PyVal

/-- `MCPServerConnection._send_request` (mcp_client.py lines 231-257):
increment `_request_id`, write the request, read one reply line, and return
`response.get("result")`.  The reply's `id` field is never inspected.  Any
exception while writing/reading/parsing is caught and yields `None`. -/
def sendRequest (conn : MCPConnSt) (method : String) (params : PyVal) :
    MCPConnSt × Option PyVal :=
  match conn.process with
  | Option.none => (conn, Option.none)
  | some proc =>
    let rid := conn.request_id + 1
    let conn' := { conn with request_id := rid }
    match proc.respond rid method params with
    | Option.none => (conn', Option.none)
    | some resp => (conn', resp.result)

/-- The result-content extraction of `MCPServerConnection.call_tool`
(mcp_client.py lines 282-292): when the reply result is truthy, pull its
`content` list and join the `text` fields of `text`-typed items; otherwise
return the result unchanged.  `.error` marks the places where the Python
would raise (`.get` on a non-dict, joining a non-string). -/
def extractStdioResult : Option PyVal → Except String PyVal
  | Option.none => Except.ok PyVal.none
  | some r =>
    if pyTruthy r then
      match r with
      | PyVal.dict es =>
        let content := (es.lookup "content").getD (PyVal.list [])
        if pyTruthy content then
          match content with
          | PyVal.list items =>
            ((items.mapM fun it =>
              match it with
              | PyVal.dict ies =>
                match ies.lookup "type" with
                | some (PyVal.str ty) =>
                  if ty = "text" then
                    match ies.lookup "text" with
                    | some (PyVal.str s) => Except.ok [s]
                    | some PyVal.none => Except.ok [""]
                    | some _ => Except.error "TypeError: sequence item"
                    | Option.none => Except.ok [""]
                  else Except.ok []
                | _ => Except.ok []
              | _ => Except.error "AttributeError: get") :
                Except String (List (List String))).map
              fun ls => PyVal.str (String.intercalate "\n" ls.flatten)
          | _ => Except.error "TypeError: not iterable"
        else Except.ok r
      | _ => Except.error "AttributeError: get"
    else Except.ok r

/-- `MCPServerConnection.call_tool` (mcp_client.py lines 271-297). -/
def MCPConnSt.call_tool (conn : MCPConnSt) (tool : String) (args : Args) :
    MCPConnSt × Except String PyVal :=
  if !conn.connected then
    (conn, Except.ok (errDict "Not connected to server"))
  else
    match conn.transport with
    | MCPTransportK.stdio =>
      let sr := sendRequest conn "tools/call"
        (PyVal.dict [("name", PyVal.str tool), ("arguments", PyVal.dict args)])
      (sr.1, extractStdioResult sr.2)
    | MCPTransportK.http => (conn, Except.ok (conn.httpCall tool args))
    | MCPTransportK.websocket => (conn, Except.ok (errDict "Unknown transport"))

/-- The state of an `MCPClientManager` (mcp_client.py lines 326-336):
`servers` is its insertion-ordered server dict, `tool_to_server` the
tool-name-to-server-name dict. -/
structure MCPClientMgr where
  servers : List (String × MCPConnSt)
  tool_to_server : String → Option String

/-- `MCPClientManager.call_tool` (mcp_client.py lines 414-424). -/
def MCPClientMgr.call_tool (m : MCPClientMgr) (tool : String) (args : Args) :
    MCPClientMgr × Except String PyVal :=
  match m.tool_to_server tool with
  | Option.none => (m, Except.ok (errDict ("Tool " ++ tool ++ " not found")))
  | some sname =>
    if sname.isEmpty then
      (m, Except.ok (errDict ("Tool " ++ tool ++ " not found")))
    else
      match m.servers.lookup sname with
      | Option.none =>
        (m, Except.ok (errDict ("Server " ++ sname ++ " not connected")))
      | some conn =>
        if !conn.connected then
          (m, Except.ok (errDict ("Server " ++ sname ++ " not connected")))
        else
          let cr := conn.call_tool tool args
          ({ m with
               servers := m.servers.map fun p =>
                 if p.1 = sname then (sname, cr.1) else p },
           cr.2)

/-- `MCPClientManager.remove_server` (mcp_client.py lines 376-387): pop the
mapping of every tool the connection discovered, drop the connection (its
`disconnect()` terminates the child process), and report whether the server
existed.  The `_save_config` write to disk is outside the embedding. -/
def MCPClientMgr.remove_server (m : MCPClientMgr) (name : String) :
    MCPClientMgr × Bool :=
  match m.servers.lookup name with
  | Option.none => (m, false)
  | some conn =>
    ({ servers := m.servers.filter fun p => p.1 != name
       tool_to_server :=
         conn.tools.foldl (fun acc t => fpop acc t.name) m.tool_to_server },
     true)

/-- `LocalMCPServer` (mcp_client.py lines 443-484): its registered handler
dict.  A handler models the registered Python callable; `.error` stands for
the callable raising. -/
structure LocalMCPSrv where
  name : String
  tools : String → Option (Args → Except String PyVal)

/-- `LocalMCPServer.call_tool` (mcp_client.py lines 471-484): a missing
handler or a raising handler both come back as an error dict. -/
def LocalMCPSrv.call_tool (s : LocalMCPSrv) (tool : String) (args : Args) :
    PyVal :=
  match s.tools tool with
  | Option.none => errDict ("Tool " ++ tool ++ " not found")
  | some h =>
    match h args with
    | Except.ok v => v
    | Except.error e => errDict e

/-! ## `skills_extended.py`: `BaseSkill`, `SkillsRegistry` -/

/-- A `SkillTool` of skills_extended.py: name plus handler; `.error` stands
for the handler raising. -/
structure SkillToolM where
  name : String
  handler : Args → Except String PyVal

/-- A `BaseSkill` instance (skills_extended.py lines 38-67). -/
structure ExtSkill where
  name : String
  tools : List SkillToolM

/-- `BaseSkill.execute` (skills_extended.py lines 59-67): first tool whose
name matches runs; otherwise an error dict is returned (not raised). -/
def ExtSkill.execute (sk : ExtSkill) (tool : String) (args : Args) :
    Except String PyVal :=
  match sk.tools.find? (fun t => t.name == tool) with
  | some t => t.handler args
  | Option.none =>
    Except.ok (errDict ("Tool " ++ tool ++ " not found in skill " ++ sk.name))

/-- `SkillsRegistry` (skills_extended.py lines 1949-2014): its
insertion-ordered skill dict. -/
structure SkillsReg where
  skills : List (String × ExtSkill)

/-- `SkillsRegistry.get_tool_names` (skills_extended.py lines 1985-1991):
fold every skill's tools into a tool-name-to-skill-name dict; later entries
overwrite earlier ones. -/
def SkillsReg.get_tool_names (r : SkillsReg) : String → Option String :=
  r.skills.foldl
    (fun acc p => p.2.tools.foldl (fun a t => fset a t.name p.1) acc)
    (fun _ => Option.none)

/-- `SkillsRegistry.execute_tool` (skills_extended.py lines 1993-2002). -/
def SkillsReg.execute_tool (r : SkillsReg) (tool : String) (args : Args) :
    Except String PyVal :=
  match r.get_tool_names tool with
  | Option.none => Except.ok (errDict ("Tool " ++ tool ++ " not found"))
  | some sname =>
    if sname.isEmpty then Except.ok (errDict ("Tool " ++ tool ++ " not found"))
    else
      match r.skills.lookup sname with
      | some sk => sk.execute tool args
      | Option.none => Except.error ("KeyError: " ++ sname)

/-! ## `mcp_client.py`: `MCPOrchestrator` -/

/-- The state of an `MCPOrchestrator` (mcp_client.py lines 1000-1010):
`tool_to_server` is its flat dispatch map
`tool_name -> (server_name, is_local, is_extended)`. -/
structure MCPOrch where
  client_manager : MCPClientMgr
  local_servers : String → Option LocalMCPSrv
  extended_skills : Option SkillsReg
  tool_to_server : String → Option (String × Bool × Bool)

/-- `MCPOrchestrator.call_tool` (mcp_client.py lines 1080-1100).  An
unknown tool returns an error dict (it does not raise); the fall-through
when the named local server / extended registry is missing returns the
`Server ... not found` dict, exactly as the source's trailing return. -/
def MCPOrch.call_tool (o : MCPOrch) (tool : String) (args : Args) :
    MCPOrch × Except String PyVal :=
  match o.tool_to_server tool with
  | Option.none => (o, Except.ok (errDict ("Tool " ++ tool ++ " not found")))
  | some entry =>
    let server_name := entry.1
    let is_local := entry.2.1
    let is_extended := entry.2.2
    if is_extended then
      match o.extended_skills with
      | some reg => (o, reg.execute_tool tool args)
      | Option.none =>
        (o, Except.ok (errDict ("Server " ++ server_name ++ " not found")))
    else if is_local then
      match o.local_servers server_name with
      | some srv => (o, Except.ok (srv.call_tool tool args))
      | Option.none =>
        (o, Except.ok (errDict ("Server " ++ server_name ++ " not found")))
    else
      let mr := o.client_manager.call_tool tool args
      ({ o with client_manager := mr.1 }, mr.2)

/-- The external-tool map merge performed by `MCPOrchestrator.initialize`
(mcp_client.py lines 1047-1056): for every connection of the client
manager, map each discovered tool name to `(server_name, False, False)` in
the orchestrator's flat dispatch map.  The `connect_all` process spawning is
abstracted: connections and their catalogs are taken as already populated. -/
def MCPOrch.mergeExternalToolMap (o : MCPOrch) : MCPOrch :=
  { o with
      tool_to_server :=
        o.client_manager.servers.foldl
          (fun acc p =>
            p.2.tools.foldl (fun a t => fset a t.name (p.1, false, false)) acc)
          o.tool_to_server }

/-- `MCPOrchestrator.remove_external_server` (mcp_client.py lines
1145-1147): delegates to the client manager and touches nothing else — in
particular the orchestrator's own `tool_to_server` map is left as is. -/
def MCPOrch.remove_external_server (o : MCPOrch) (name : String) :
    MCPOrch × Bool :=
  let mr := o.client_manager.remove_server name
  ({ o with client_manager := mr.1 }, mr.2)

/-! ## `tool_executor.py`: `ToolExecutor` -/

/-- The state of a `ToolExecutor` (tool_executor.py lines 291-323).
`skill_loader` is the tool-to-skill mapping computed by
`SkillLoader.get_skill_for_tool` over the SKILL.md files loaded from disk
(the files themselves are outside the source tree, so the loaded state is
taken as a map). -/
structure ExecSt where
  policy : ToolPolicy
  registry : String → Option ToolDefinition
  local_handlers : String → Option (Args → Except String PyVal)
  mcp_orchestrator : Option MCPOrch
  extended_skills : Option SkillsReg
  skill_loader : String → Option String
  rate_counters : String → List Int

/-- `ToolExecutor._execute_local` (tool_executor.py lines 406-415): a
missing handler raises `ValueError`. -/
def executeLocal (ex : ExecSt) (tool : String) (params : Args) :
    Except String PyVal :=
  match ex.local_handlers tool with
  | Option.none => Except.error ("No local handler for: " ++ tool)
  | some h => h params

/-- `ToolExecutor._execute_mcp` (tool_executor.py lines 417-422), returning
the updated executor alongside the value since the orchestrator's connection
state may advance. -/
def executeMcp (ex : ExecSt) (tool : String) (params : Args) :
    ExecSt × Except String PyVal :=
  match ex.mcp_orchestrator with
  | Option.none => (ex, Except.error "MCP orchestrator not initialized")
  | some o =>
    let cr := o.call_tool tool params
    ({ ex with mcp_orchestrator := some cr.1 }, cr.2)

/-- `ToolExecutor._execute_mcp_local` (tool_executor.py lines 424-429): the
source calls `self._mcp_orchestrator.call_local_tool`, a method
`MCPOrchestrator` does not define, so Python raises `AttributeError`, which
the `execute` boundary catches. -/
def executeMcpLocal (ex : ExecSt) (_tool : String) (_params : Args) :
    Except String PyVal :=
  match ex.mcp_orchestrator with
  | Option.none => Except.error "MCP orchestrator not initialized"
  | some _ =>
    Except.error
      (sq ++ "MCPOrchestrator" ++ sq ++ " object has no attribute " ++ sq ++
        "call_local_tool" ++ sq)

/-- `ToolExecutor._execute_extended` (tool_executor.py lines 431-450). -/
def executeExtended (ex : ExecSt) (tool : String) (params : Args) :
    Except String PyVal :=
  match ex.extended_skills with
  | Option.none => Except.error "Extended skills not initialized"
  | some reg =>
    match ex.skill_loader tool with
    | Option.none =>
      match reg.skills.find? (fun p => p.2.tools.any fun t => t.name == tool) with
      | some p => p.2.execute tool params
      | Option.none => Except.error ("No skill found for tool: " ++ tool)
    | some sname =>
      match reg.skills.lookup sname with
      | Option.none => Except.error ("Skill not found: " ++ sname)
      | some sk => sk.execute tool params

/-- The routing body of the `try` block of `ToolExecutor.execute`
(tool_executor.py lines 359-386): dispatch by registry tool type when the
tool is registered, else probe local handlers, then the MCP orchestrator,
then extended skills; `Option.none` in the second component is the
`Tool not found` short-circuit taken when none of those are available. -/
def dispatchByKind (ex : ExecSt) (tool : String) (params : Args) :
    ExecSt × Option (Except String PyVal) :=
  match ex.registry tool with
  | some td =>
    match td.tool_type with
    | ToolTypeK.LOCAL => (ex, some (executeLocal ex tool params))
    | ToolTypeK.MCP_EXTERNAL =>
      let er := executeMcp ex tool params
      (er.1, some er.2)
    | ToolTypeK.MCP_BUILTIN => (ex, some (executeMcpLocal ex tool params))
    | ToolTypeK.EXTENDED => (ex, some (executeExtended ex tool params))
  | Option.none =>
    if (ex.local_handlers tool).isSome then
      (ex, some (executeLocal ex tool params))
    else if ex.mcp_orchestrator.isSome then
      let er := executeMcp ex tool params
      (er.1, some er.2)
    else if ex.extended_skills.isSome then
      (ex, some (executeExtended ex tool params))
    else (ex, Option.none)

/-- `ToolExecutor.execute` (tool_executor.py lines 325-404): policy check,
rate-limit check, routing, and the exception boundary that converts any
error raised during dispatch into a failed `ToolCallResult` carrying the
exception's message. -/
def execute (ex : ExecSt) (tool : String) (params : Args) (now : Int) :
    ExecSt × ToolCallResult :=
  let pol := ex.policy.is_allowed tool
  if pol.1 = false then (ex, mkFail tool pol.2)
  else
    let rl := checkRateLimit ex.policy ex.rate_counters tool now
    let ex1 := { ex with rate_counters := rl.2 }
    if rl.1 = false then
      (ex1, mkFail tool ("Rate limit exceeded for " ++ tool))
    else
      let d := dispatchByKind ex1 tool params
      match d.2 with
      | Option.none => (d.1, mkFail tool ("Tool not found: " ++ tool))
      | some (Except.ok v) => (d.1, mkOk tool v)
      | some (Except.error e) => (d.1, mkFail tool e)

/-! ## Concrete instances used in the theorems below -/

/-- A fresh (never-run) step entry, as built by `start_workflow`
(agent_core.py line 488). -/
def entryOf (s : WFStep) : StepEntry where
  step := s
  stStatus := "pending"
  recorded := Option.none

/-- The spec's three-step example task: step 2 is required. -/
def taskEx3 : Task where
  status := TaskStatus.in_progress
  current_step := 0
  steps :=
    [entryOf { name := "s1", tool := "t1", required := false },
     entryOf { name := "s2", tool := "t2", required := true },
     entryOf { name := "s3", tool := "t3", required := false }]
  error := Option.none

/-- Outcomes for `taskEx3`: step index 1 fails, the others succeed. -/
def outEx3 : Nat → StepOutcome := fun i =>
  if i = 1 then { success := false, error := some "boom" }
  else { success := true, error := Option.none }

/-- A two-step in-progress task. -/
def taskEx2 : Task where
  status := TaskStatus.in_progress
  current_step := 0
  steps :=
    [entryOf { name := "a", tool := "ta", required := true },
     entryOf { name := "b", tool := "tb", required := false }]
  error := Option.none

/-- All steps succeed. -/
def outOk : Nat → StepOutcome := fun _ =>
  { success := true, error := Option.none }

/-- `taskEx2` already marked completed (a non-in-progress task). -/
def taskDone : Task := { taskEx2 with status := TaskStatus.completed }

/-- Concrete workflow-level params: `x -> 1`, `y -> 2`. -/
def wfParamsEx : StrMap := fun k =>
  if k = "x" then some (PyVal.int 1)
  else if k = "y" then some (PyVal.int 2)
  else Option.none

/-- Concrete static step params: `y -> 7`. -/
def stepParamsEx : StrMap := fun k =>
  if k = "y" then some (PyVal.int 7) else Option.none

/-- The policy with a per-minute ceiling of 3 on `tool_T` (the spec's
rate-limit example). -/
def limit3Policy : ToolPolicy :=
  { defaultPolicy with
      rate_limits := fun t => if t = "tool_T" then some 3 else Option.none }

/-- Fresh rate counters. -/
def emptyCounters : String → List Int := fun _ => []

/-- A local handler that raises. -/
def boomHandler : Args → Except String PyVal := fun _ => Except.error "boom"

/-- An executor with a single raising local handler for `widget_make`. -/
def exBoom : ExecSt where
  policy := defaultPolicy
  registry := fun _ => Option.none
  local_handlers := fun t =>
    if t = "widget_make" then some boomHandler else Option.none
  mcp_orchestrator := Option.none
  extended_skills := Option.none
  skill_loader := fun _ => Option.none
  rate_counters := fun _ => []

/-- A local handler standing for a shell runner: it succeeds and reports
that it ran. -/
def termHandler : Args → Except String PyVal := fun _ =>
  Except.ok (PyVal.str "executed")

/-- An executor with a local handler registered for `terminal_execute`, a
tool in the policy's `require_confirmation` set, and no confirmation
recorded anywhere (the source has no channel for one). -/
def exConf : ExecSt where
  policy := defaultPolicy
  registry := fun _ => Option.none
  local_handlers := fun t =>
    if t = "terminal_execute" then some termHandler else Option.none
  mcp_orchestrator := Option.none
  extended_skills := Option.none
  skill_loader := fun _ => Option.none
  rate_counters := fun _ => []

/-- A client manager with no servers. -/
def emptyMgr : MCPClientMgr where
  servers := []
  tool_to_server := fun _ => Option.none

/-- An orchestrator that knows no tools at all. -/
def orchEmpty : MCPOrch where
  client_manager := emptyMgr
  local_servers := fun _ => Option.none
  extended_skills := Option.none
  tool_to_server := fun _ => Option.none

/-- An executor whose registry and handlers are empty but which has the
(empty) MCP orchestrator attached — the configuration `bot.py` wires up. -/
def exOrch : ExecSt where
  policy := defaultPolicy
  registry := fun _ => Option.none
  local_handlers := fun _ => Option.none
  mcp_orchestrator := some orchEmpty
  extended_skills := Option.none
  skill_loader := fun _ => Option.none
  rate_counters := fun _ => []

/-- An external connection whose discovered catalog is the single tool
`ext_tool`. -/
def connExt : MCPConnSt where
  connected := true
  transport := MCPTransportK.stdio
  tools := [{ name := "ext_tool" }]
  request_id := 0
  process := Option.none
  httpCall := fun _ _ => PyVal.none

/-- The client manager after `connect_all` discovered `connExt` under the
server name `ext`. -/
def mgrExt : MCPClientMgr where
  servers := [("ext", connExt)]
  tool_to_server := fset (fun _ => Option.none) "ext_tool" "ext"

/-- The orchestrator after its external-map merge over `mgrExt`. -/
def orchExt : MCPOrch :=
  MCPOrch.mergeExternalToolMap
    { client_manager := mgrExt
      local_servers := fun _ => Option.none
      extended_skills := Option.none
      tool_to_server := fun _ => Option.none }

/-- `orchExt` after `remove_external_server("ext")`. -/
def orchExtRemoved : MCPOrch := (orchExt.remove_external_server "ext").1

/-- A responder whose reply id never matches the request id: it answers
request `rid` with a reply tagged `rid + 1`. -/
def procMismatch : ProcOracle where
  respond := fun rid _ _ =>
    some { id := rid + 1, result := some (PyVal.str "mismatched payload") }

/-- A connected stdio connection driven by `procMismatch`. -/
def connMis : MCPConnSt where
  connected := true
  transport := MCPTransportK.stdio
  tools := []
  request_id := 0
  process := some procMismatch
  httpCall := fun _ _ => PyVal.none

/-! ## Theorems -/

/-- C9: for every task whose status is not `InProgress`,
`continue_workflow` returns the task with every field unchanged and
performs no step execution and no persistence write (the event trace is
empty). -/
theorem continue_workflow_noninprogress_frame (o : Nat → StepOutcome)
    (t : Task) (h : t.status ≠ TaskStatus.in_progress) :
    continue_workflow o t = (t, []) := by
  unfold continue_workflow
  rw [if_pos h]

/-- Witness for C9 at a concrete completed task. -/
theorem continue_workflow_noninprogress_frame_witness :
    continue_workflow outOk taskDone = (taskDone, []) :=
  continue_workflow_noninprogress_frame outOk taskDone (by decide)

/-- C10: in `execute_step`, the parameters passed to the step's tool are
the union of the workflow-level params and the step's static params, with
the step's static value winning on keys present in both. -/
theorem execute_step_param_precedence (wf stepP : StrMap) (k : String) :
    (∀ v, stepP k = some v → executeStepParams (some wf) stepP k = some v) ∧
    (stepP k = Option.none → executeStepParams (some wf) stepP k = wf k) ∧
    (executeStepParams (some wf) stepP k = Option.none ↔
      (stepP k = Option.none ∧ wf k = Option.none)) := by
  refine ⟨fun v hv => by simp [executeStepParams, pyUnion, hv],
    fun hv => by simp [executeStepParams, pyUnion, hv], ?_⟩
  cases hv : stepP k with
  | none => simp [executeStepParams, pyUnion, hv]
  | some v => simp [executeStepParams, pyUnion, hv]

/-- Witness for C10: on concrete maps sharing the key `y`, the step's
static value wins, and a key only in the workflow params survives. -/
theorem execute_step_param_precedence_witness :
    executeStepParams (some wfParamsEx) stepParamsEx "y" = some (PyVal.int 7) ∧
    executeStepParams (some wfParamsEx) stepParamsEx "x" = some (PyVal.int 1) := by
  refine ⟨(execute_step_param_precedence wfParamsEx stepParamsEx "y").1
      (PyVal.int 7) rfl, ?_⟩
  exact (execute_step_param_precedence wfParamsEx stepParamsEx "x").2.1 rfl

/-- C5 counterexample: `_send_request` never inspects the reply id.  On a
connection whose process answers request 1 with a reply tagged id 2, the
mismatched reply's payload is returned as the call's result (there is no
`ProtocolViolation`), refuting the claim at this concrete input. -/
theorem send_request_mismatched_id_counterexample :
    (sendRequest connMis "tools/call" (PyVal.dict [])).1.request_id = 1 ∧
    procMismatch.respond 1 "tools/call" (PyVal.dict []) =
      some { id := 2, result := some (PyVal.str "mismatched payload") } ∧
    (2 : Int) ≠ 1 ∧
    (sendRequest connMis "tools/call" (PyVal.dict [])).2 =
      some (PyVal.str "mismatched payload") :=
  ⟨rfl, rfl, by decide, rfl⟩

/-- C5 amended: whenever the process produces a parseable reply,
`_send_request` returns that reply's `result` payload unconditionally — the
reply's id field is never compared against the request id, so a
mismatched-id reply's payload is returned rather than any protocol-violation
error. -/
theorem send_request_returns_reply_result (conn : MCPConnSt)
    (proc : ProcOracle) (method : String) (params : PyVal) (reply : ReplyMsg)
    (hp : conn.process = some proc)
    (hr : proc.respond (conn.request_id + 1) method params = some reply) :
    (sendRequest conn method params).2 = reply.result := by
  unfold sendRequest
  rw [hp]
  simp only [hr]

/-- Witness for the C5 amended theorem at the mismatching responder. -/
theorem send_request_returns_reply_result_witness :
    (sendRequest connMis "tools/call" (PyVal.dict [])).2 =
      some (PyVal.str "mismatched payload") :=
  send_request_returns_reply_result connMis procMismatch "tools/call"
    (PyVal.dict []) { id := 2, result := some (PyVal.str "mismatched payload") }
    rfl rfl

/-- C3 (code bug): `terminal_execute` is in the policy's
`require_confirmation` set, yet `ToolExecutor.execute` never consults
`needs_confirmation` — with a local handler registered and no confirmation
anywhere, the handler runs and the call returns `success=true` instead of a
blocked `needs confirmation` result. -/
theorem confirmation_gate_not_enforced :
    defaultPolicy.needsConf "terminal_execute" = true ∧
    (execute exConf "terminal_execute" [] 0).2 =
      mkOk "terminal_execute" (PyVal.str "executed") := by
  exact ⟨by decide, rfl⟩

/-- C1: any exception raised while dispatching (to a local handler, the MCP
orchestrator, a builtin MCP path, or an extended skill) is caught at the
`execute` boundary and converted into a failed `ToolCallResult` whose
`error` is the exception's message; `execute` itself is a total function
into `ToolCallResult`. -/
theorem execute_converts_dispatch_exceptions (ex : ExecSt) (tool : String)
    (params : Args) (now : Int) (e : String)
    (hpol : (ex.policy.is_allowed tool).1 = true)
    (hrl : (checkRateLimit ex.policy ex.rate_counters tool now).1 = true)
    (hdisp : (dispatchByKind
        { ex with
            rate_counters := (checkRateLimit ex.policy ex.rate_counters tool now).2 }
        tool params).2 = some (Except.error e)) :
    (execute ex tool params now).2 = mkFail tool e := by
  unfold execute
  simp only [hpol, hrl, Bool.true_eq_false, if_false]
  rw [hdisp]

/-- Witness for C1: a raising local handler surfaces as a failed result
carrying its message. -/
theorem execute_converts_dispatch_exceptions_witness :
    (execute exBoom "widget_make" [] 0).2 = mkFail "widget_make" "boom" :=
  execute_converts_dispatch_exceptions exBoom "widget_make" [] 0 "boom"
    rfl rfl rfl

/-- Routing helper: with no registry entry, no local handler, no
orchestrator and no extended skills, the dispatch body short-circuits. -/
lemma dispatch_unknown_none (ex : ExecSt) (tool : String) (params : Args)
    (hreg : ex.registry tool = Option.none)
    (hloc : ex.local_handlers tool = Option.none)
    (ho : ex.mcp_orchestrator = Option.none)
    (he : ex.extended_skills = Option.none) :
    dispatchByKind ex tool params = (ex, Option.none) := by
  unfold dispatchByKind
  rw [hreg, hloc, ho, he]
  rfl

/-- Routing helper: with no registry entry and no local handler but an
orchestrator attached, the dispatch body delegates to the orchestrator,
whose unknown-tool answer is an error dict returned as a VALUE (not an
exception). -/
lemma dispatch_unknown_orch (ex : ExecSt) (tool : String) (params : Args)
    (o : MCPOrch)
    (hreg : ex.registry tool = Option.none)
    (hloc : ex.local_handlers tool = Option.none)
    (ho : ex.mcp_orchestrator = some o)
    (hmap : o.tool_to_server tool = Option.none) :
    (dispatchByKind ex tool params).2 =
      some (Except.ok (errDict ("Tool " ++ tool ++ " not found"))) := by
  unfold dispatchByKind executeMcp MCPOrch.call_tool
  rw [hreg, hloc, ho]
  simp [hmap]

/-- Routing helper: with no registry entry, no local handler, no
orchestrator but extended skills attached, an unknown tool raises
`ValueError` inside `_execute_extended`. -/
lemma dispatch_unknown_ext (ex : ExecSt) (tool : String) (params : Args)
    (reg : SkillsReg)
    (hreg : ex.registry tool = Option.none)
    (hloc : ex.local_handlers tool = Option.none)
    (ho : ex.mcp_orchestrator = Option.none)
    (he : ex.extended_skills = some reg)
    (hsl : ex.skill_loader tool = Option.none)
    (hf : reg.skills.find? (fun p => p.2.tools.any fun t => t.name == tool) =
      Option.none) :
    (dispatchByKind ex tool params).2 =
      some (Except.error ("No skill found for tool: " ++ tool)) := by
  unfold dispatchByKind executeExtended
  rw [hreg, hloc, ho, he]
  simp [hsl, hf]

/-- C6 counterexample: with the MCP orchestrator attached (as `bot.py`
wires it) and a tool unknown everywhere, `execute` does NOT return
`success=false` with a not-found error — the orchestrator's
`{"error": ...}` dict comes back as a successful result, refuting the claim
at this concrete input. -/
theorem unknown_tool_with_orchestrator_counterexample :
    (execute exOrch "ghost_tool" [] 0).2 =
      mkOk "ghost_tool" (errDict "Tool ghost_tool not found") ∧
    (execute exOrch "ghost_tool" [] 0).2.success = true :=
  ⟨rfl, rfl⟩

/-- C6 amended: an everywhere-unknown tool short-circuits with
`success=false` and `Tool not found` only when neither an orchestrator nor
extended skills are attached; with an orchestrator attached the call is
handed to it and its `{"error": "Tool ... not found"}` payload is wrapped
in a ToolCallResult with `success=true`; with only extended skills
attached, the `No skill found` ValueError is caught, yielding
`success=false`. -/
theorem unknown_tool_dispatch_behavior (ex : ExecSt) (tool : String)
    (params : Args) (now : Int)
    (hpol : (ex.policy.is_allowed tool).1 = true)
    (hrl : (checkRateLimit ex.policy ex.rate_counters tool now).1 = true)
    (hreg : ex.registry tool = Option.none)
    (hloc : ex.local_handlers tool = Option.none) :
    (ex.mcp_orchestrator = Option.none → ex.extended_skills = Option.none →
      (execute ex tool params now).2 =
        mkFail tool ("Tool not found: " ++ tool)) ∧
    (∀ o : MCPOrch, ex.mcp_orchestrator = some o →
      o.tool_to_server tool = Option.none →
      (execute ex tool params now).2 =
        mkOk tool (errDict ("Tool " ++ tool ++ " not found"))) ∧
    (∀ reg : SkillsReg, ex.mcp_orchestrator = Option.none →
      ex.extended_skills = some reg →
      ex.skill_loader tool = Option.none →
      reg.skills.find? (fun p => p.2.tools.any fun t => t.name == tool) =
        Option.none →
      (execute ex tool params now).2 =
        mkFail tool ("No skill found for tool: " ++ tool)) := by
  refine ⟨fun ho he => ?_, fun o ho hmap => ?_, fun reg ho he hsl hf => ?_⟩
  · have hd := dispatch_unknown_none
      { ex with
          rate_counters := (checkRateLimit ex.policy ex.rate_counters tool now).2 }
      tool params hreg hloc ho he
    unfold execute
    simp only [hpol, hrl, Bool.true_eq_false, if_false, hd]
  · have hd := dispatch_unknown_orch
      { ex with
          rate_counters := (checkRateLimit ex.policy ex.rate_counters tool now).2 }
      tool params o hreg hloc ho hmap
    unfold execute
    simp only [hpol, hrl, Bool.true_eq_false, if_false]
    rw [hd]
  · have hd := dispatch_unknown_ext
      { ex with
          rate_counters := (checkRateLimit ex.policy ex.rate_counters tool now).2 }
      tool params reg hreg hloc ho he hsl hf
    unfold execute
    simp only [hpol, hrl, Bool.true_eq_false, if_false]
    rw [hd]

/-- Witness for the C6 amended theorem at the concrete orchestrator-attached
executor. -/
theorem unknown_tool_dispatch_behavior_witness :
    (execute exOrch "ghost_tool" [] 0).2 =
      mkOk "ghost_tool" (errDict ("Tool " ++ "ghost_tool" ++ " not found")) :=
  (unknown_tool_dispatch_behavior exOrch "ghost_tool" [] 0
    rfl rfl rfl rfl).2.1 orchEmpty rfl rfl

/-- Popping never introduces an entry: folding `pop` over a tool list keeps
an absent key absent. -/
lemma fpop_foldl_none (ts : List MCPToolM) :
    ∀ (m : String → Option String) (x : String), m x = Option.none →
      (ts.foldl (fun acc t => fpop acc t.name) m) x = Option.none := by
  induction ts with
  | nil => intro m x hx; exact hx
  | cons t ts ih =>
    intro m x hx
    refine ih (fpop m t.name) x ?_
    unfold fpop
    by_cases h : x = t.name <;> simp [h, hx]

/-- Folding `pop` over a tool list erases the mapping of every tool name in
the list. -/
lemma fpop_foldl_mem (ts : List MCPToolM) :
    ∀ (m : String → Option String) (x : String),
      x ∈ ts.map MCPToolM.name →
      (ts.foldl (fun acc t => fpop acc t.name) m) x = Option.none := by
  induction ts with
  | nil => intro m x hx; simp at hx
  | cons t ts ih =>
    intro m x hx
    rcases List.mem_cons.mp hx with h | h
    · refine fpop_foldl_none ts (fpop m t.name) x ?_
      unfold fpop
      simp [h]
    · exact ih (fpop m t.name) x h

/-- Filtering out a server name makes its lookup miss. -/
lemma lookup_filter_self (l : List (String × MCPConnSt)) (name : String) :
    (l.filter fun p => p.1 != name).lookup name = Option.none := by
  induction l with
  | nil => rfl
  | cons p l ih =>
    obtain ⟨k, v⟩ := p
    by_cases hk : k = name
    · have hb : (k != name) = false := by simp [hk]
      simp [List.filter_cons, hb, ih]
    · have hb : (k != name) = true := by simp [hk]
      have hb2 : (name == k) = false := by simp [Ne.symm hk]
      simp [List.filter_cons, hb, List.lookup, hb2, ih]

/-- Dispatching through the orchestrator on an external-kind map entry when
the client manager no longer maps the tool yields the manager's not-found
error dict. -/
lemma orch_call_external_missing (o2 : MCPOrch) (tool : String) (args : Args)
    (sname : String)
    (hmap : o2.tool_to_server tool = some (sname, false, false))
    (hmgr : o2.client_manager.tool_to_server tool = Option.none) :
    (o2.call_tool tool args).2 =
      Except.ok (errDict ("Tool " ++ tool ++ " not found")) := by
  simp [MCPOrch.call_tool, MCPClientMgr.call_tool, hmap, hmgr]

/-- C7 counterexample: after `remove_external_server("ext")` on an
orchestrator whose external-map merge recorded `ext_tool -> (ext, external)`
in its flat dispatch map, that stale entry is still present, refuting the
claim that no entry owned by the removed provider remains in the map used
for dispatch (the manager-side map and the connection are purged). -/
theorem stale_dispatch_entry_counterexample :
    orchExtRemoved.tool_to_server "ext_tool" = some ("ext", false, false) ∧
    orchExtRemoved.client_manager.tool_to_server "ext_tool" = Option.none ∧
    orchExtRemoved.client_manager.servers.lookup "ext" = Option.none :=
  ⟨rfl, rfl, rfl⟩

/-- C7 amended: removing an external provider purges the client manager's
tool-to-server map and drops its connection, so a call through the
orchestrator for a tool the provider owned falls through to the manager and
yields a not-found error dict instead of reaching the removed provider; the
orchestrator's own flat dispatch map, however, is untouched and keeps the
stale entry. -/
theorem remove_server_purges_manager_map (o : MCPOrch) (name : String)
    (conn : MCPConnSt) (tname : String) (args : Args)
    (hs : o.client_manager.servers.lookup name = some conn)
    (ht : tname ∈ conn.tools.map MCPToolM.name) :
    ((o.remove_external_server name).1.client_manager.tool_to_server tname =
      Option.none) ∧
    ((o.remove_external_server name).1.client_manager.servers.lookup name =
      Option.none) ∧
    ((o.remove_external_server name).1.tool_to_server = o.tool_to_server) ∧
    ((o.remove_external_server name).1.tool_to_server tname =
        some (name, false, false) →
      (((o.remove_external_server name).1.call_tool tname args)).2 =
        Except.ok (errDict ("Tool " ++ tname ++ " not found"))) := by
  have hpop : ∀ m : String → Option String,
      (conn.tools.foldl (fun acc t => fpop acc t.name) m) tname = Option.none :=
    fun m => fpop_foldl_mem conn.tools m tname ht
  have e1 : (o.remove_external_server name).1.client_manager.tool_to_server =
      conn.tools.foldl (fun acc t => fpop acc t.name)
        o.client_manager.tool_to_server := by
    unfold MCPOrch.remove_external_server MCPClientMgr.remove_server
    rw [hs]
  have e2 : (o.remove_external_server name).1.client_manager.servers =
      o.client_manager.servers.filter (fun p => p.1 != name) := by
    unfold MCPOrch.remove_external_server MCPClientMgr.remove_server
    rw [hs]
  have e3 : (o.remove_external_server name).1.tool_to_server =
      o.tool_to_server := by
    unfold MCPOrch.remove_external_server MCPClientMgr.remove_server
    rw [hs]
  refine ⟨by rw [e1]; exact hpop _, by rw [e2]; exact lookup_filter_self _ _,
    e3, fun hmap => ?_⟩
  exact orch_call_external_missing _ tname args name hmap
    (by rw [e1]; exact hpop _)



/-- Witness for the C7 amended theorem at the concrete removed provider. -/
theorem remove_server_purges_manager_map_witness :
    orchExtRemoved.client_manager.tool_to_server "ext_tool" = Option.none ∧
    (orchExtRemoved.call_tool "ext_tool" []).2 =
      Except.ok (errDict ("Tool " ++ "ext_tool" ++ " not found")) := by
  have h := remove_server_purges_manager_map orchExt "ext" connExt "ext_tool"
    [] rfl (by decide)
  exact ⟨h.1, h.2.2.2 rfl⟩

/-- Every event the step loop emits is a step dispatch, never a save. -/
lemma contLoop_events_exec (o : Nat → StepOutcome) :
    ∀ (fuel : Nat) (t : Task) (e : WFEvent),
      e ∈ (contLoop o fuel t).2 → ∃ i, e = WFEvent.exec i := by
  intro fuel
  induction fuel with
  | zero => intro t e he; simp [contLoop] at he
  | succ fuel ih =>
    intro t e he
    unfold contLoop at he
    by_cases h : t.current_step < t.steps.length
    · rw [dif_pos h] at he
      dsimp only at he
      split at he
      · simp at he
        exact ⟨_, he⟩
      · rcases List.mem_cons.mp he with h1 | h1
        · exact ⟨_, h1⟩
        · exact ih _ e h1
    · rw [dif_neg h] at he
      simp at he

/-- C4 counterexample: on a concrete two-step all-success workflow run, the
event trace is dispatch, dispatch, save — a single persistence write after
the loop, with no save between the first step's outcome and the second
step's dispatch, refuting the claim that the task is persisted after every
single step. -/
theorem workflow_persists_once_counterexample :
    (continue_workflow outOk taskEx2).2 =
      [WFEvent.exec 0, WFEvent.exec 1, WFEvent.save] ∧
    (continue_workflow outOk taskEx2).2.count WFEvent.save = 1 ∧
    WFEvent.save ∉ (continue_workflow outOk taskEx2).2.take 2 := by
  refine ⟨rfl, rfl, by decide⟩

/-- C4 amended: `continue_workflow` on an in-progress task persists the
task exactly once, after the step loop has finished (by completion or by a
required failure) — the save is the last event of the trace and no save
occurs between steps. -/
theorem workflow_single_save_at_end (o : Nat → StepOutcome) (t : Task)
    (h : t.status = TaskStatus.in_progress) :
    (continue_workflow o t).2.count WFEvent.save = 1 ∧
    (continue_workflow o t).2.getLast? = some WFEvent.save := by
  unfold continue_workflow
  rw [if_neg (by simp [h])]
  dsimp only
  constructor
  · rw [List.count_append]
    have h0 : (contLoop o (t.steps.length - t.current_step) t).2.count
        WFEvent.save = 0 := by
      rw [List.count_eq_zero]
      intro hmem
      rcases contLoop_events_exec o _ t WFEvent.save hmem with ⟨i, hi⟩
      exact WFEvent.noConfusion hi
    rw [h0]
    rfl
  · exact List.getLast?_concat _

/-- Witness for the C4 amended theorem on the concrete two-step workflow. -/
theorem workflow_single_save_at_end_witness :
    (continue_workflow outOk taskEx2).2.count WFEvent.save = 1 ∧
    (continue_workflow outOk taskEx2).2.getLast? = some WFEvent.save :=
  workflow_single_save_at_end outOk taskEx2 rfl

/-- `reqFailAt` at an in-range index reads that entry. -/
lemma reqFailAt_get (o : Nat → StepOutcome) (steps : List StepEntry) (k : Nat)
    (h : k < steps.length) :
    reqFailAt o steps k =
      ((steps.get ⟨k, h⟩).step.required && !(o k).success) := by
  unfold reqFailAt
  rw [List.getElem?_eq_getElem h]
  rfl

/-- A failing required index is in range. -/
lemma reqFailAt_lt (o : Nat → StepOutcome) (steps : List StepEntry) (k : Nat)
    (h : reqFailAt o steps k = true) : k < steps.length := by
  by_contra hk
  push_neg at hk
  unfold reqFailAt at h
  rw [List.getElem?_eq_none hk] at h
  exact Bool.noConfusion h

/-- Setting one entry does not change `reqFailAt` elsewhere. -/
lemma reqFailAt_set_ne (o : Nat → StepOutcome) (steps : List StepEntry)
    (i : Nat) (en : StepEntry) (j : Nat) (hij : i ≠ j) :
    reqFailAt o (steps.set i en) j = reqFailAt o steps j := by
  unfold reqFailAt
  rw [List.getElem?_set_ne hij]

/-- Setting one entry does not change `stepNameAt` elsewhere. -/
lemma stepNameAt_set_ne (steps : List StepEntry) (i : Nat) (en : StepEntry)
    (j : Nat) (hij : i ≠ j) :
    stepNameAt (steps.set i en) j = stepNameAt steps j := by
  unfold stepNameAt
  rw [List.getElem?_set_ne hij]

/-- `stepNameAt` at an in-range index reads that entry's name. -/
lemma stepNameAt_get (steps : List StepEntry) (k : Nat)
    (h : k < steps.length) :
    stepNameAt steps k = (steps.get ⟨k, h⟩).step.name := by
  unfold stepNameAt
  rw [List.getElem?_eq_getElem h]
  rfl

/-- The step loop, run from a state whose first failing required step (at
or past the cursor) is `i`: it stops at `i` with status `failed`, an error
built from step `i`'s name, no dispatch past `i`, and the step count
unchanged. -/
lemma contLoop_first_required_failure (o : Nat → StepOutcome) :
    ∀ (fuel : Nat) (t : Task) (i : Nat),
      t.current_step + fuel = t.steps.length →
      t.current_step ≤ i →
      reqFailAt o t.steps i = true →
      (∀ j, t.current_step ≤ j → j < i → reqFailAt o t.steps j = false) →
      (contLoop o fuel t).1.status = TaskStatus.failed ∧
      (contLoop o fuel t).1.current_step = i ∧
      (∃ e, (contLoop o fuel t).1.error =
        some (mkStepError (stepNameAt t.steps i) e)) ∧
      (∀ j, WFEvent.exec j ∈ (contLoop o fuel t).2 → j ≤ i) ∧
      (contLoop o fuel t).1.steps.length = t.steps.length := by
  intro fuel
  induction fuel with
  | zero =>
    intro t i hlen hle hfail _
    exact absurd (reqFailAt_lt o t.steps i hfail) (by omega)
  | succ fuel ih =>
    intro t i hlen hle hfail hmin
    have hlt : t.current_step < t.steps.length := by omega
    by_cases hcur : t.current_step = i
    · have hc : ((t.steps.get ⟨t.current_step, hlt⟩).step.required &&
          !(o t.current_step).success) = true := by
        rw [← reqFailAt_get o t.steps t.current_step hlt, hcur]
        exact hfail
      have hc2 : (!(o t.current_step).success &&
          (t.steps.get ⟨t.current_step, hlt⟩).step.required) = true := by
        rw [Bool.and_comm]
        exact hc
      unfold contLoop
      rw [dif_pos hlt]
      dsimp only
      rw [if_pos hc2]
      refine ⟨rfl, hcur, ⟨(o t.current_step).error.getD "None", ?_⟩, ?_, ?_⟩
      · dsimp only
        rw [← hcur, stepNameAt_get t.steps t.current_step hlt]
      · intro j hj
        have h3 := List.mem_singleton.mp hj
        have h4 : j = t.current_step := by injection h3
        omega
      · dsimp only
        exact List.length_set ..
    · have hcl : t.current_step < i := lt_of_le_of_ne hle hcur
      have hff : reqFailAt o t.steps t.current_step = false :=
        hmin t.current_step le_rfl hcl
      have hc2 : (!(o t.current_step).success &&
          (t.steps.get ⟨t.current_step, hlt⟩).step.required) = false := by
        rw [Bool.and_comm, ← reqFailAt_get o t.steps t.current_step hlt]
        exact hff
      unfold contLoop
      rw [dif_pos hlt]
      dsimp only
      rw [if_neg (by rw [hc2]; exact Bool.false_ne_true)]
      have key := ih { t with
          steps := t.steps.set t.current_step
            { t.steps.get ⟨t.current_step, hlt⟩ with
                stStatus :=
                  if (o t.current_step).success then "completed" else "failed"
                recorded := some (o t.current_step) }
          current_step := t.current_step + 1 } i
        (by dsimp only; rw [List.length_set]; omega)
        (by dsimp only; omega)
        (by
          dsimp only
          rw [reqFailAt_set_ne o t.steps t.current_step _ i hcur]
          exact hfail)
        (by
          intro j hj1 hj2
          dsimp only at hj1 ⊢
          rw [reqFailAt_set_ne o t.steps t.current_step _ j (by omega)]
          exact hmin j (by omega) hj2)
      refine ⟨key.1, key.2.1, ?_, ?_, ?_⟩
      · obtain ⟨e, he⟩ := key.2.2.1
        rw [stepNameAt_set_ne t.steps t.current_step _ i hcur] at he
        exact ⟨e, he⟩
      · intro j hj
        rcases List.mem_cons.mp hj with h1 | h1
        · have h2 : j = t.current_step := by injection h1
          omega
        · exact key.2.2.2.1 j h1
      · rw [key.2.2.2.2]
        dsimp only
        exact List.length_set ..

/-- The step loop, run from a state with no failing required step at or
past the cursor: it consumes every step, leaving the status untouched and
the cursor at the end. -/
lemma contLoop_no_required_failure (o : Nat → StepOutcome) :
    ∀ (fuel : Nat) (t : Task),
      t.current_step + fuel = t.steps.length →
      (∀ j, t.current_step ≤ j → reqFailAt o t.steps j = false) →
      (contLoop o fuel t).1.current_step = t.steps.length ∧
      (contLoop o fuel t).1.status = t.status ∧
      (contLoop o fuel t).1.steps.length = t.steps.length := by
  intro fuel
  induction fuel with
  | zero =>
    intro t hlen hnf
    unfold contLoop
    refine ⟨?_, rfl, rfl⟩
    show t.current_step = t.steps.length
    omega
  | succ fuel ih =>
    intro t hlen hnf
    have hlt : t.current_step < t.steps.length := by omega
    have hff := hnf t.current_step le_rfl
    have hc2 : (!(o t.current_step).success &&
        (t.steps.get ⟨t.current_step, hlt⟩).step.required) = false := by
      rw [Bool.and_comm, ← reqFailAt_get o t.steps t.current_step hlt]
      exact hff
    unfold contLoop
    rw [dif_pos hlt]
    dsimp only
    rw [if_neg (by rw [hc2]; exact Bool.false_ne_true)]
    have key := ih { t with
        steps := t.steps.set t.current_step
          { t.steps.get ⟨t.current_step, hlt⟩ with
              stStatus :=
                if (o t.current_step).success then "completed" else "failed"
              recorded := some (o t.current_step) }
        current_step := t.current_step + 1 }
      (by dsimp only; rw [List.length_set]; omega)
      (by
        intro j hj1
        dsimp only at hj1 ⊢
        rw [reqFailAt_set_ne o t.steps t.current_step _ j (by omega)]
        exact hnf j (by omega))
    refine ⟨?_, key.2.1, ?_⟩
    · rw [key.1]
      dsimp only
      exact List.length_set ..
    · rw [key.2.2]
      dsimp only
      exact List.length_set ..

/-- C2: for an in-progress task driven by `continue_workflow`: if `i` is
the first failing required step at or past the cursor, the task ends
`failed` with `current_step = i`, no step past `i` is dispatched, and the
error text contains step `i`'s name; if no required step fails, the task
ends `completed` with the cursor at the end; and `completed` holds iff the
cursor reached `len(steps)` and no required step failed. -/
theorem continue_workflow_required_failure_semantics (o : Nat → StepOutcome)
    (t : Task) (hst : t.status = TaskStatus.in_progress)
    (hcur : t.current_step ≤ t.steps.length) :
    (∀ i, t.current_step ≤ i → reqFailAt o t.steps i = true →
      (∀ j, t.current_step ≤ j → j < i → reqFailAt o t.steps j = false) →
      (continue_workflow o t).1.status = TaskStatus.failed ∧
      (continue_workflow o t).1.current_step = i ∧
      (∃ pre post, (continue_workflow o t).1.error =
        some (pre ++ stepNameAt t.steps i ++ post)) ∧
      (∀ j, WFEvent.exec j ∈ (continue_workflow o t).2 → j ≤ i)) ∧
    ((∀ j, t.current_step ≤ j → reqFailAt o t.steps j = false) →
      (continue_workflow o t).1.status = TaskStatus.completed ∧
      (continue_workflow o t).1.current_step = t.steps.length) ∧
    ((continue_workflow o t).1.status = TaskStatus.completed ↔
      ((continue_workflow o t).1.current_step = t.steps.length ∧
       ∀ j, t.current_step ≤ j → reqFailAt o t.steps j = false)) := by
  have hfuel : t.current_step + (t.steps.length - t.current_step) =
      t.steps.length := by omega
  have partA : ∀ i, t.current_step ≤ i → reqFailAt o t.steps i = true →
      (∀ j, t.current_step ≤ j → j < i → reqFailAt o t.steps j = false) →
      (continue_workflow o t).1.status = TaskStatus.failed ∧
      (continue_workflow o t).1.current_step = i ∧
      (∃ pre post, (continue_workflow o t).1.error =
        some (pre ++ stepNameAt t.steps i ++ post)) ∧
      (∀ j, WFEvent.exec j ∈ (continue_workflow o t).2 → j ≤ i) := by
    intro i hle hf hmin
    have key := contLoop_first_required_failure o
      (t.steps.length - t.current_step) t i hfuel hle hf hmin
    have hlti : i < t.steps.length := reqFailAt_lt o t.steps i hf
    unfold continue_workflow
    rw [if_neg (by simp [hst])]
    dsimp only
    rw [if_neg (by rw [key.2.2.2.2, key.2.1]; omega)]
    refine ⟨key.1, key.2.1, ?_, ?_⟩
    · obtain ⟨e, he⟩ := key.2.2.1
      refine ⟨"Step " ++ sq, sq ++ " failed: " ++ e, ?_⟩
      rw [he]
      simp [mkStepError, String.append_assoc]
    · intro j hj
      rcases List.mem_append.mp hj with h1 | h1
      · exact key.2.2.2.1 j h1
      · exact WFEvent.noConfusion (List.mem_singleton.mp h1)
  have partB : (∀ j, t.current_step ≤ j → reqFailAt o t.steps j = false) →
      (continue_workflow o t).1.status = TaskStatus.completed ∧
      (continue_workflow o t).1.current_step = t.steps.length := by
    intro hnf
    have key := contLoop_no_required_failure o
      (t.steps.length - t.current_step) t hfuel hnf
    unfold continue_workflow
    rw [if_neg (by simp [hst])]
    dsimp only
    rw [if_pos (by rw [key.1, key.2.2])]
    exact ⟨rfl, key.1⟩
  refine ⟨partA, partB, ?_⟩
  by_cases hex : ∃ k, t.current_step ≤ k ∧ reqFailAt o t.steps k = true
  · have hspec := Nat.find_spec hex
    have hmin : ∀ j, t.current_step ≤ j → j < Nat.find hex →
        reqFailAt o t.steps j = false := by
      intro j hj hji
      have hnm := Nat.find_min hex hji
      by_contra hb
      rw [Bool.not_eq_false] at hb
      exact hnm ⟨hj, hb⟩
    have hA := partA (Nat.find hex) hspec.1 hspec.2 hmin
    constructor
    · intro hc
      rw [hA.1] at hc
      exact TaskStatus.noConfusion hc
    · rintro ⟨hc1, hc2⟩
      exact absurd hspec.2 (by simp [hc2 (Nat.find hex) hspec.1])
  · have hnf : ∀ j, t.current_step ≤ j → reqFailAt o t.steps j = false := by
      intro j hj
      by_contra hb
      rw [Bool.not_eq_false] at hb
      exact hex ⟨j, hj, hb⟩
    have hB := partB hnf
    constructor
    · intro _
      exact ⟨hB.2, hnf⟩
    · intro _
      exact hB.1

/-- Witness for C2 on the spec's three-step example: step 2 (index 1),
required, fails; the task ends failed at index 1 and step 3 is never
dispatched. -/
theorem continue_workflow_required_failure_semantics_witness :
    (continue_workflow outEx3 taskEx3).1.status = TaskStatus.failed ∧
    (continue_workflow outEx3 taskEx3).1.current_step = 1 ∧
    WFEvent.exec 2 ∉ (continue_workflow outEx3 taskEx3).2 := by
  have h := continue_workflow_required_failure_semantics outEx3 taskEx3 rfl
    (by decide)
  have h1 := h.1 1 (by decide) (by decide)
    (by
      intro j hj hj1
      have hj0 : j = 0 := by omega
      subst hj0
      decide)
  refine ⟨h1.1, h1.2.1, fun hmem => ?_⟩
  have := h1.2.2.2 2 hmem
  omega

/-- Refinement invariant for the sliding window: as long as the stored
counter list and the true list of allowed-call times agree on every element
strictly newer than any future cutoff, `_check_rate_limit` produces exactly
the verdicts of the spec-side sliding-window rule. -/
lemma runRateCalls_eq_spec_aux (p : ToolPolicy) (tool : String) (N : Nat)
    (hN : p.rate_limits tool = some N) (hN0 : 0 < N) :
    ∀ (times : List Int) (b : Int) (c : String → List Int)
      (allowedT : List Int),
      List.Chain' (fun x y : Int => x ≤ y) (b :: times) →
      (∀ m : Int, b - 60 ≤ m →
        (c tool).filter (fun x => decide (m < x)) =
          allowedT.filter (fun x => decide (m < x))) →
      runRateCalls p c tool times = specAllowedFlags N allowedT times := by
  intro times
  induction times with
  | nil => intro b c allowedT _ _; rfl
  | cons now rest ih =>
    intro b c allowedT hch hinv
    have hb : b ≤ now := (List.chain'_cons.mp hch).1
    have hch2 : List.Chain' (fun x y : Int => x ≤ y) (now :: rest) :=
      (List.chain'_cons.mp hch).2
    have hkey := hinv (now - 60) (by omega)
    unfold runRateCalls specAllowedFlags checkRateLimit
    rw [hN]
    dsimp only
    rw [if_neg (show ¬ N = 0 by omega)]
    rw [hkey]
    by_cases hcnt :
        (allowedT.filter (fun x => decide (now - 60 < x))).length < N
    · have h1 : ¬ N ≤
          (allowedT.filter (fun x => decide (now - 60 < x))).length := by omega
      rw [if_neg h1, if_pos hcnt]
      dsimp only
      refine congrArg (List.cons true) (ih now _ _ hch2 ?_)
      intro m hm
      rw [if_pos rfl, List.filter_append, List.filter_append,
        List.filter_filter]
      have hcg : allowedT.filter
            (fun a => decide (m < a) && decide (now - 60 < a)) =
          allowedT.filter (fun a => decide (m < a)) := by
        refine List.filter_congr ?_
        intro a _
        by_cases hma : m < a
        · rw [decide_eq_true hma, Bool.true_and]
          exact decide_eq_true (by omega)
        · rw [decide_eq_false hma, Bool.false_and]
      rw [hcg]
    · have h1 : N ≤
          (allowedT.filter (fun x => decide (now - 60 < x))).length := by omega
      rw [if_pos h1, if_neg hcnt]
      dsimp only
      refine congrArg (List.cons false) (ih now _ _ hch2 ?_)
      intro m hm
      exact hinv m (by omega)

/-- C8: the rate limiter implements a sliding 60-second window per tool: a
call is allowed iff fewer than the configured ceiling of prior allowed
calls fall strictly within the preceding 60 seconds, denied calls are not
recorded, tools without a configured ceiling are always allowed, every
ceiling the shipped policy configures is positive, and the spec's concrete
ceiling-3 example yields allowed, allowed, allowed, denied in call order. -/
theorem rate_limit_sliding_window :
    (∀ (p : ToolPolicy) (c : String → List Int) (tool : String)
       (times : List Int),
       p.rate_limits tool = Option.none →
       runRateCalls p c tool times = times.map fun _ => true) ∧
    (∀ (p : ToolPolicy) (tool : String) (N : Nat) (c : String → List Int)
       (times : List Int),
       p.rate_limits tool = some N → 0 < N → c tool = [] →
       List.Chain' (fun x y : Int => x ≤ y) times →
       runRateCalls p c tool times = specAllowedFlags N [] times) ∧
    (∀ t N, defaultPolicy.rate_limits t = some N → 0 < N) ∧
    runRateCalls limit3Policy emptyCounters "tool_T" [0, 3, 6, 9] =
      [true, true, true, false] := by
  refine ⟨?_, ?_, ?_, ?_⟩
  · intro p c tool times hN
    induction times generalizing c with
    | nil => rfl
    | cons now rest ih =>
      unfold runRateCalls checkRateLimit
      rw [hN]
      dsimp only
      exact congrArg (List.cons true) (ih c)
  · intro p tool N c times hN hN0 hc hch
    cases times with
    | nil => rfl
    | cons t0 rest =>
      refine runRateCalls_eq_spec_aux p tool N hN hN0 (t0 :: rest) t0 c []
        (List.chain'_cons.mpr ⟨le_refl t0, hch⟩) ?_
      intro m _
      rw [hc]
  · intro t N h
    unfold defaultPolicy defaultRateLimits at h
    dsimp only at h
    split at h
    · injection h with h2
      omega
    · split at h
      · injection h with h2
        omega
      · exact Option.noConfusion h
  · rfl

/-- Witness for C8: applying the refinement at the concrete ceiling-3
policy and four calls within ten seconds. -/
theorem rate_limit_sliding_window_witness :
    runRateCalls limit3Policy emptyCounters "tool_T" [0, 3, 6, 9] =
      specAllowedFlags 3 [] [0, 3, 6, 9] :=
  rate_limit_sliding_window.2.1 limit3Policy "tool_T" 3 emptyCounters
    [0, 3, 6, 9] rfl (by omega) rfl
    (by simp [List.chain'_cons, List.chain'_singleton])

end HRBot
